import Mathlib

/-!
Shallow embedding of the scrcpy-mcp core: the scrcpy session engine
(src/unnamed/part_001), the wire constants (src/src/utils/constants.ts),
the operation routers of the tool surface (src/src/tools/input.ts and
src/src/tools/clipboard.ts), and the textual helpers (shell escaping,
clipboard service-dump extraction, long-listing analysis).

Machine integers are modelled as Nat; byte streams as List Nat; JavaScript
strings as Lean String(acting on the underlying List Char).  Stateful code
(the session table) is modelled as an explicit step function over events.
-/

namespace ScrcpyMcp

/-! ## Character and string helpers (JavaScript semantics) -/

/-- JavaScript whitespace class membership for the common characters
appearing in regex class backslash-s and in trim. -/
def jsWhitespaceChar (c : Char) : Bool :=
  c == ' ' || c == '\t' || c == '\n' || c == '\r' ||
  c == Char.ofNat 11 || c == Char.ofNat 12 || c == Char.ofNat 160

/-- JavaScript line terminators: the characters that the regex dot does not
match. -/
def lineTermChar (c : Char) : Bool :=
  c == '\n' || c == '\r' || c == Char.ofNat 0x2028 || c == Char.ofNat 0x2029

/-- String.prototype.trim on the character list. -/
def jsTrimList (l : List Char) : List Char :=
  ((l.dropWhile jsWhitespaceChar).reverse.dropWhile jsWhitespaceChar).reverse

/-- String.prototype.trim. -/
def jsTrim (s : String) : String := ⟨jsTrimList s.data⟩

def isDigitChar (c : Char) : Bool := '0' ≤ c && c ≤ '9'

def digitVal (c : Char) : Nat := c.toNat - '0'.toNat

def isHexChar (c : Char) : Bool :=
  isDigitChar c || ('a' ≤ c && c ≤ 'f') || ('A' ≤ c && c ≤ 'F')

def hexVal (c : Char) : Nat :=
  if isDigitChar c then digitVal c
  else if 'a' ≤ c && c ≤ 'f' then c.toNat - 'a'.toNat + 10
  else c.toNat - 'A'.toNat + 10

/-- Does `l` start with the list `pre`? (String.prototype.startsWith.) -/
def startsWithList (pre l : List Char) : Bool := l.take pre.length == pre

/-- Does `l` contain `needle` as a contiguous sublist?
(String.prototype.includes.) -/
def containsList (needle : List Char) : List Char → Bool
  | [] => needle.isEmpty
  | c :: rest => startsWithList needle (c :: rest) || containsList needle rest

def natOfDigits (ds : List Char) : Nat :=
  ds.foldl (fun a c => a * 10 + digitVal c) 0

/-- JavaScript parseInt(s, 10): skip leading whitespace, optional sign,
longest digit run; none models NaN. -/
def jsParseInt (s : String) : Option Int :=
  let l := s.data.dropWhile jsWhitespaceChar
  let run : List Char → Option Nat := fun l2 =>
    let ds := l2.takeWhile isDigitChar
    if ds.isEmpty then none else some (natOfDigits ds)
  match l with
  | '-' :: rest => (run rest).map (fun n => -(n : Int))
  | '+' :: rest => (run rest).map (fun n => (n : Int))
  | rest => (run rest).map (fun n => (n : Int))

/-! ## Wire constants (src/src/utils/constants.ts) -/

def SCRCPY_SERVER_PORT : Nat := 27183

def SCRCPY_SERVER_PATH_LOCAL : String := "/data/local/tmp/scrcpy-server.jar"

/-- Default of SCRCPY_SERVER_VERSION in constants.ts (env override absent). -/
def SCRCPY_SERVER_VERSION : String := "3.3.4"

def DEVICE_META_SIZE : Nat := 76

def VIDEO_WIDTH_OFFSET : Nat := 68

def VIDEO_HEIGHT_OFFSET : Nat := 72

/-! ## Session engine: connect and metadata (src/unnamed/part_001) -/

/-- Environment of one TCP connect through the adb forward tunnel:
whether the tunnel accepts the connection before the connect timer fires,
and the bytes the device-side server will ever send on the stream. -/
structure ConnectEnv where
  acceptsTcp : Bool
  serverBytes : List Nat
deriving DecidableEq

/-- A connected socket as the engine hands it on: the stream bytes not yet
consumed by anything, and the destroyed flag. -/
structure ConnSock where
  pendingBytes : List Nat
  destroyed : Bool
deriving DecidableEq

/-- connectToServer's timeout argument default (part_001 line 156). -/
def connectTimeoutMs : Nat := 10000

/-- connectToServer (part_001 lines 156-174): resolves the socket on the
connect event, rejects on error/timeout.  No byte of the stream is read
before resolving, and there is no retry loop around it. -/
def connectToServer (env : ConnectEnv) : Except String ConnSock :=
  if env.acceptsTcp then
    Except.ok { pendingBytes := env.serverBytes, destroyed := false }
  else Except.error "Connection timeout"

def byteAt (buf : List Nat) (i : Nat) : Nat := buf.getD i 0

/-- buffer.readUInt16BE (part_001 lines 152-154). -/
def readUint16BE (buf : List Nat) (off : Nat) : Nat :=
  byteAt buf off * 256 + byteAt buf (off + 1)

/-- buffer.readUInt32BE, for comparison with the documented frame layout. -/
def readUint32BE (buf : List Nat) (off : Nat) : Nat :=
  ((byteAt buf off * 256 + byteAt buf (off + 1)) * 256 + byteAt buf (off + 2)) * 256
    + byteAt buf (off + 3)

/-- The 5000 ms metadata timer (part_001 lines 178-180). -/
def metadataTimeoutMs : Nat := 5000

/-- Data-event loop of receiveDeviceMeta (part_001 lines 182-196): chunks
are concatenated into a buffer; as soon as the buffer holds at least 68
bytes it resolves with u16be values at offsets 5 and 7.  Exhausting the
chunk list without reaching 68 bytes models the 5 s timeout rejection. -/
def receiveDeviceMetaLoop : List Nat → List (List Nat) → Option (Nat × Nat)
  | _, [] => none
  | buffer, chunk :: rest =>
    let buf := buffer ++ chunk
    if 68 ≤ buf.length then some (readUint16BE buf 5, readUint16BE buf 7)
    else receiveDeviceMetaLoop buf rest

/-- receiveDeviceMeta (part_001 lines 176-201). -/
def receiveDeviceMeta (chunks : List (List Nat)) : Option (Nat × Nat) :=
  receiveDeviceMetaLoop [] chunks

/-- Device metadata as the specification describes the 76-byte frame. -/
structure SpecDeviceMeta where
  deviceName : List Nat
  codecId : Nat
  width : Nat
  height : Nat
  spill : List Nat
deriving DecidableEq

/-- Modelled from the spec: the video-socket handshake frame the session
engine is documented to read (spec section 6 and constants.ts lines
111-126) - exactly 76 bytes, device name in bytes 0..63, codec id u32be at
64, width u32be at 68, height u32be at 72, with every byte past 76
returned as spill. -/
def specReceiveDeviceMeta (buf : List Nat) : Option SpecDeviceMeta :=
  if DEVICE_META_SIZE ≤ buf.length then
    some { deviceName := buf.take 64
           codecId := readUint32BE buf 64
           width := readUint32BE buf VIDEO_WIDTH_OFFSET
           height := readUint32BE buf VIDEO_HEIGHT_OFFSET
           spill := buf.drop DEVICE_META_SIZE }
  else none

/-! ## Session engine: server spawn and port forward -/

/-- Argument list passed to adb by startScrcpyServer
(part_001 lines 110-150). -/
def serverArgs (serial : String) (maxSize maxFps videoBitRate : Nat) : List String :=
  ["-s", serial, "shell",
   "CLASSPATH=" ++ SCRCPY_SERVER_PATH_LOCAL,
   "app_process",
   "/",
   "com.genymobile.scrcpy.Server",
   "2.7",
   "log_level=debug",
   "max_size=" ++ toString maxSize,
   "max_fps=" ++ toString maxFps,
   "video_bit_rate=" ++ toString videoBitRate,
   "tunnel_forward=true",
   "control=true",
   "audio=false",
   "video=true",
   "cleanup=true",
   "power_off_on_close=false",
   "clipboard_autosync=true",
   "downsize_on_error=true",
   "send_device_meta=true",
   "send_frame_meta=false",
   "send_dummy_byte=true",
   "send_codec_meta=true",
   "video_codec=h264"]

/-- Argument list of setupPortForwarding (part_001 lines 98-100). -/
def forwardArgs (serial : String) (port : Nat) : List String :=
  ["-s", serial, "forward", "tcp:" ++ toString port, "localabstract:scrcpy"]

/-! ## Session table state machine (part_001 lines 51-68 and 203-282) -/

/-- The control socket object held in a session entry. -/
structure Sock where
  destroyed : Bool
deriving DecidableEq

/-- One entry of the sessions map.  gen identifies which startSession call
created the entry (the closure identity of its socket handlers). -/
structure SessionEntry where
  gen : Nat
  controlSocket : Option Sock
  width : Nat
  height : Nat
deriving DecidableEq

abbrev SessionTable := String → Option SessionEntry

def emptyTable : SessionTable := fun _ => none

/-- hasActiveSession (part_001 lines 65-68). -/
def hasActiveSession (st : SessionTable) (serial : String) : Bool :=
  match st serial with
  | some e =>
    match e.controlSocket with
    | some sock => !sock.destroyed
    | none => false
  | none => false

def hasEntry (st : SessionTable) (serial : String) : Bool := (st serial).isSome

inductive SessionEvent where
  | startOk (serial : String) (g w h : Nat)
  | startFail (serial : String)
  | sockClose (serial : String) (g : Nat)
  | sockError (serial : String) (g : Nat)
  | stop (serial : String)

/-- One step of the session engine over the table.
startOk: startSession reached sessions.set (lines 216-218 early-return when
a live session exists, line 241 insert/overwrite otherwise).
startFail: an earlier step threw; the table is untouched.
sockClose / sockError: the close/error handler of the generation-g socket
sets that session object's controlSocket to null (lines 243-250); the
entry is not removed.
stop: stopSession destroys the socket and deletes the entry
(lines 255-282). -/
def stepSession (st : SessionTable) : SessionEvent → SessionTable
  | .startOk s g w h =>
    if hasActiveSession st s then st
    else fun k => if k = s then some ⟨g, some ⟨false⟩, w, h⟩ else st k
  | .startFail _ => st
  | .sockClose s g =>
    match st s with
    | some e =>
      if e.gen = g then fun k => if k = s then some { e with controlSocket := none } else st k
      else st
    | none => st
  | .sockError s g =>
    match st s with
    | some e =>
      if e.gen = g then fun k => if k = s then some { e with controlSocket := none } else st k
      else st
    | none => st
  | .stop s => fun k => if k = s then none else st k

def runSession (st : SessionTable) (evs : List SessionEvent) : SessionTable :=
  evs.foldl stepSession st

/-- Had a successful startSession with no later stopSession: the condition
that turns out to govern entry existence in the table. -/
def startedAndNotStopped (evs : List SessionEvent) (s : String) : Bool :=
  evs.foldl
    (fun b e =>
      match e with
      | .startOk s2 _ _ _ => if s2 = s then true else b
      | .stop s2 => if s2 = s then false else b
      | _ => b)
    false

/-! ## Operation router (src/src/tools/input.ts, src/src/tools/clipboard.ts) -/

/-- What a tool handler returns to the tool framework: a success text or
the JSON error payload.  The handlers always return; no exception escapes
the outermost try/catch. -/
inductive ToolOutcome where
  | okText (msg : String)
  | errPayload (msg : String)
deriving DecidableEq

/-- The ADB rung of a two-rung handler: the shell command's success text,
or its thrown message caught by the outer catch and returned as the error
payload. -/
def adbRung (adb : Except String String) : ToolOutcome :=
  match adb with
  | .ok m => .okText m
  | .error m => .errPayload m

/-- The shared control flow of the tap/swipe/long-press/drag-drop/
input-text/key-event/scroll/clipboard-set handlers (for example input.ts
lines 194-219): resolve the serial; if a session is active try the scrcpy
path and return its success, catching and logging its error; then run the
ADB fallback; any error left is returned as the payload. -/
def routeOp (resolve : Except String String) (active : Bool)
    (scrcpy : Except String String) (adb : Except String String) : ToolOutcome :=
  match resolve with
  | .error m => .errPayload m
  | .ok _ =>
    if active then
      match scrcpy with
      | .ok m => .okText m
      | .error _ => adbRung adb
    else adbRung adb

/-- Failure message of the clipboard_get ADB rung
(clipboard.ts lines 137-145). -/
def clipboardAdbFailMsg : String :=
  "Could not retrieve clipboard content. On Android 10+, start a scrcpy session for reliable clipboard access."

def clipboardAdbRung (adbGet : Option String) : ToolOutcome :=
  match adbGet with
  | some c => .okText c
  | none => .errPayload clipboardAdbFailMsg

/-- clipboard_get handler control flow (clipboard.ts lines 105-155): the
scrcpy path may yield content, yield null (logged, fall through) or throw
(caught, logged, fall through); the ADB rung yields content or null, and
null becomes the error payload. -/
def routeClipboardGet (resolve : Except String String) (active : Bool)
    (scrcpyGet : Except String (Option String)) (adbGet : Option String) : ToolOutcome :=
  match resolve with
  | .error m => .errPayload m
  | .ok _ =>
    if active then
      match scrcpyGet with
      | .ok (some c) => .okText c
      | .ok none => clipboardAdbRung adbGet
      | .error _ => clipboardAdbRung adbGet
    else clipboardAdbRung adbGet

/-! ## swipe (input.ts lines 114-142 and 235-260) -/

inductive TouchAction where
  | down
  | move
  | up
deriving DecidableEq

/-- Math.round: floor of x + 1/2. -/
def jsRound (q : ℚ) : ℤ := ⌊q + 1 / 2⌋

/-- steps = Math.max(2, Math.floor(duration / 16)) (input.ts line 126). -/
def swipeSteps (duration : Nat) : Nat := max 2 (duration / 16)

/-- Coordinate of the i-th interpolated point:
Math.round(x1 + ((x2 - x1) / steps) * i). -/
def swipeMovePoint (x1 x2 : ℤ) (steps j : Nat) : ℤ :=
  jsRound ((x1 : ℚ) + ((x2 : ℚ) - (x1 : ℚ)) / (steps : ℚ) * (j : ℚ))

structure SwipePlan where
  events : List (TouchAction × ℤ × ℤ)
  stepDelayMs : ℚ
deriving DecidableEq

/-- swipeViaScrcpy (input.ts lines 114-142): DOWN at the start point, MOVE
at the interpolated points for i = 1 .. steps-1, UP at the end point, with
a sleep of duration/steps milliseconds after DOWN and after each MOVE. -/
def swipeViaScrcpy (x1 y1 x2 y2 : ℤ) (duration : Nat) : SwipePlan :=
  let steps := swipeSteps duration
  { events :=
      (TouchAction.down, x1, y1) ::
        ((List.range (steps - 1)).map
          (fun i =>
            (TouchAction.move, swipeMovePoint x1 x2 steps (i + 1),
              swipeMovePoint y1 y2 steps (i + 1)))
          ++ [(TouchAction.up, x2, y2)])
    stepDelayMs := (duration : ℚ) / (steps : ℚ) }

def isMoveEvt : TouchAction × ℤ × ℤ → Bool
  | (TouchAction.move, _, _) => true
  | _ => false

/-- The ADB fallback command of the swipe handler (input.ts line 254). -/
def swipeAdbCommand (x1 y1 x2 y2 duration : Nat) : String :=
  "input swipe " ++ toString x1 ++ " " ++ toString y1 ++ " " ++ toString x2 ++ " "
    ++ toString y2 ++ " " ++ toString duration

/-! ## getClipboardViaAdb (src/src/tools/clipboard.ts lines 10-69) -/

/-- Strategy 1 completion after the closing parenthesis: backslash-s star
then a greedy dot-plus capture, with the regex engine's backtracking of
the whitespace run when nothing matchable follows it. -/
def strat1BackQ (after : List Char) : Nat → Option Nat
  | 0 =>
    if decide (0 < after.length) && !lineTermChar (after.getD 0 ' ') then some 0 else none
  | q + 1 =>
    if decide (q + 1 < after.length) && !lineTermChar (after.getD (q + 1) ' ') then some (q + 1)
    else strat1BackQ after q

def strat1Complete (after : List Char) : Option (List Char) :=
  let p := (after.takeWhile jsWhitespaceChar).length
  (strat1BackQ after p).map (fun q => ((after.drop q).takeWhile (fun c => !lineTermChar c)))

/-- Attempt of the strategy-1 regex anchored at the head of `l`:
result=0 case-insensitively, any non-parenthesis run, a closing
parenthesis, whitespace, then the capture. -/
def strat1At (l : List Char) : Option (List Char) :=
  if (l.take 8).map Char.toLower == "result=0".data then
    let after8 := l.drop 8
    if after8.any (fun c => c == ')') then
      strat1Complete ((after8.dropWhile (fun c => !(c == ')'))).tail)
    else none
  else none

/-- First (leftmost) match of the strategy-1 regex of clipboard.ts line 28. -/
def strat1 : List Char → Option (List Char)
  | [] => none
  | c :: rest =>
    match strat1At (c :: rest) with
    | some cap => some cap
    | none => strat1 rest

/-- Strategy 2 (clipboard.ts line 35): the first double-quoted substring. -/
def strat2 (l : List Char) : Option (List Char) :=
  match l.dropWhile (fun c => !(c == '"')) with
  | [] => none
  | _ :: rest =>
    if rest.any (fun c => c == '"') then some (rest.takeWhile (fun c => !(c == '"')))
    else none

/-- Strategy 3 (clipboard.ts line 43): the first hex run introduced by 0x. -/
def strat3 : List Char → Option (List Char)
  | [] => none
  | '0' :: 'x' :: c :: rest =>
    if isHexChar c then some ((c :: rest).takeWhile isHexChar)
    else strat3 ('x' :: c :: rest)
  | _ :: rest => strat3 rest

/-- Buffer.from(hex, "hex"): byte per digit pair, odd trailing digit
dropped. -/
def hexPairsToBytes : List Char → List Nat
  | a :: b :: rest => (hexVal a * 16 + hexVal b) :: hexPairsToBytes rest
  | _ => []

def repChar : Char := Char.ofNat 0xFFFD

def utf8Cont (b : Nat) : Bool := 0x80 ≤ b && b ≤ 0xBF

/-- UTF-8 decoding with replacement characters, as
Buffer.prototype.toString("utf8") performs it; fuel bounds recursion. -/
def utf8DecodeFuel : Nat → List Nat → List Char
  | 0, _ => []
  | _, [] => []
  | fuel + 1, b :: rest =>
    if b ≤ 0x7F then Char.ofNat b :: utf8DecodeFuel fuel rest
    else if b < 0xC2 then repChar :: utf8DecodeFuel fuel rest
    else if b ≤ 0xDF then
      match rest with
      | c1 :: rest2 =>
        if utf8Cont c1 then
          Char.ofNat ((b - 0xC0) * 64 + (c1 - 0x80)) :: utf8DecodeFuel fuel rest2
        else repChar :: utf8DecodeFuel fuel rest
      | [] => [repChar]
    else if b ≤ 0xEF then
      let lo := if b == 0xE0 then 0xA0 else 0x80
      let hi := if b == 0xED then 0x9F else 0xBF
      match rest with
      | c1 :: rest2 =>
        if lo ≤ c1 && c1 ≤ hi then
          match rest2 with
          | c2 :: rest3 =>
            if utf8Cont c2 then
              Char.ofNat (((b - 0xE0) * 64 + (c1 - 0x80)) * 64 + (c2 - 0x80)) ::
                utf8DecodeFuel fuel rest3
            else repChar :: utf8DecodeFuel fuel rest2
          | [] => [repChar]
        else repChar :: utf8DecodeFuel fuel rest
      | [] => [repChar]
    else if b ≤ 0xF4 then
      let lo := if b == 0xF0 then 0x90 else 0x80
      let hi := if b == 0xF4 then 0x8F else 0xBF
      match rest with
      | c1 :: rest2 =>
        if lo ≤ c1 && c1 ≤ hi then
          match rest2 with
          | c2 :: rest3 =>
            if utf8Cont c2 then
              match rest3 with
              | c3 :: rest4 =>
                if utf8Cont c3 then
                  Char.ofNat ((((b - 0xF0) * 64 + (c1 - 0x80)) * 64 + (c2 - 0x80)) * 64
                      + (c3 - 0x80)) :: utf8DecodeFuel fuel rest4
                else repChar :: utf8DecodeFuel fuel rest3
              | [] => [repChar]
            else repChar :: utf8DecodeFuel fuel rest2
          | [] => [repChar]
        else repChar :: utf8DecodeFuel fuel rest
      | [] => [repChar]
    else repChar :: utf8DecodeFuel fuel rest

def utf8Decode (bytes : List Nat) : List Char := utf8DecodeFuel bytes.length bytes

/-- String.fromCharCode(parseInt(three-digit-string, 8)): parseInt stops
at the first digit that is 8 or 9; an empty octal prefix gives NaN, and
fromCharCode(NaN) is the NUL character. -/
def jsFromCharCodeOct (d1 d2 d3 : Char) : Char :=
  if 8 ≤ digitVal d1 then Char.ofNat 0
  else if 8 ≤ digitVal d2 then Char.ofNat (digitVal d1)
  else if 8 ≤ digitVal d3 then Char.ofNat (digitVal d1 * 8 + digitVal d2)
  else Char.ofNat ((digitVal d1 * 8 + digitVal d2) * 8 + digitVal d3)

/-- The global replacement of backslash-three-digits runs
(clipboard.ts lines 56-58), left to right and non-overlapping. -/
def decodeOctalEscapes : List Char → List Char
  | '\\' :: d1 :: d2 :: d3 :: rest =>
    if isDigitChar d1 && isDigitChar d2 && isDigitChar d3 then
      jsFromCharCodeOct d1 d2 d3 :: decodeOctalEscapes rest
    else '\\' :: decodeOctalEscapes (d1 :: d2 :: d3 :: rest)
  | c :: rest => c :: decodeOctalEscapes rest
  | [] => []

/-- Truthiness of the mutable text variable: set and nonempty. -/
def truthyText (t : Option (List Char)) : Bool :=
  match t with
  | some l => !l.isEmpty
  | none => false

/-- The parsing block of getClipboardViaAdb over the service-call dump
(clipboard.ts lines 24-63), transcribing the mutable text flow: strategy 1
assigns its trimmed capture; strategy 2 runs when text is null or empty
and assigns a nonempty quoted capture; strategy 3 runs likewise and
assigns the decoded hex run; a final truthy text is returned after octal
unescaping, else null. -/
def parseServiceClipboardDump (svc : List Char) : Option (List Char) :=
  let t1 : Option (List Char) := (strat1 svc).map jsTrimList
  let t2 : Option (List Char) :=
    if truthyText t1 then t1
    else
      match strat2 svc with
      | some cap => if cap.isEmpty then t1 else some cap
      | none => t1
  let t3 : Option (List Char) :=
    if truthyText t2 then t2
    else
      match strat3 svc with
      | some hexRun => some (utf8Decode (hexPairsToBytes hexRun))
      | none => t2
  if truthyText t3 then t3.map decodeOctalEscapes else none

/-- The strategy chain as the specification words it: first nonempty
among trimmed strategy 1, strategy 2, utf8-decoded strategy 3, then octal
unescaping of the extracted text. -/
def nonEmptyOpt (o : Option (List Char)) : Option (List Char) :=
  match o with
  | some t => if t.isEmpty then none else some t
  | none => none

def claimStrategyChain (svc : List Char) : Option (List Char) :=
  match nonEmptyOpt ((strat1 svc).map jsTrimList) with
  | some t => some (decodeOctalEscapes t)
  | none =>
    match nonEmptyOpt (strat2 svc) with
    | some t => some (decodeOctalEscapes t)
    | none =>
      match nonEmptyOpt ((strat3 svc).map (fun h => utf8Decode (hexPairsToBytes h))) with
      | some t => some (decodeOctalEscapes t)
      | none => none

/-- Inputs of getClipboardViaAdb: the outputs of the three device commands
it may run; none models the command throwing. -/
structure AdbClipEnv where
  sdkProp : Option String
  cmdGetOut : Option String
  serviceOut : Option String

def cmdClipboardGet : String := "cmd clipboard get"

def cmdServiceCall : String := "service call clipboard 2"

/-- The sdkLevel test: !isNaN(sdkLevel) && sdkLevel >= n. -/
def sdkAtLeast (sdkProp : String) (n : Int) : Bool :=
  match jsParseInt sdkProp with
  | some v => decide (n ≤ v)
  | none => false

/-- The service-call rung of getClipboardViaAdb (clipboard.ts lines
22-63), also recording that the command ran. -/
def serviceRung (env : AdbClipEnv) (ran : List String) : Option String × List String :=
  match env.serviceOut with
  | none => (none, ran ++ [cmdServiceCall])
  | some svc =>
    if svc.isEmpty then (none, ran ++ [cmdServiceCall])
    else
      match parseServiceClipboardDump svc.data with
      | some t => (some ⟨t⟩, ran ++ [cmdServiceCall])
      | none => (none, ran ++ [cmdServiceCall])

/-- getClipboardViaAdb (clipboard.ts lines 10-69) returning the result and
the list of clipboard commands it ran, in order. -/
def getClipboardViaAdb (env : AdbClipEnv) : Option String × List String :=
  match env.sdkProp with
  | none => (none, [])
  | some sdkStr =>
    if sdkAtLeast sdkStr 31 then
      match env.cmdGetOut with
      | none => (none, [cmdClipboardGet])
      | some result =>
        if !result.isEmpty && !containsList "not found".data result.data
            && !containsList "Error".data result.data then
          (some (jsTrim result), [cmdClipboardGet])
        else serviceRung env [cmdClipboardGet]
    else serviceRung env []

/-! ## escapeTextForShell (src/src/tools/input.ts lines 46-68) -/

def flatMapChars (f : Char → List Char) : List Char → List Char
  | [] => []
  | c :: rest => f c ++ flatMapChars f rest

/-- One String.prototype.replace pass with a single-character global
pattern. -/
def jsReplaceAllChar (target : Char) (repl : List Char) (l : List Char) : List Char :=
  flatMapChars (fun c => if c = target then repl else [c]) l

/-- The twenty replace passes of escapeTextForShell, in source order
(input.ts lines 47-67). -/
def shellReplacePasses : List (Char × List Char) :=
  [('\\', ['\\', '\\']),
   ('"', ['\\', '"']),
   (Char.ofNat 39, ['\\', Char.ofNat 39]),
   (' ', ['%', 's']),
   ('(', ['\\', '(']),
   (')', ['\\', ')']),
   ('[', ['\\', '[']),
   (']', ['\\', ']']),
   (Char.ofNat 123, ['\\', Char.ofNat 123]),
   (Char.ofNat 125, ['\\', Char.ofNat 125]),
   ('|', ['\\', '|']),
   (';', ['\\', ';']),
   ('<', ['\\', '<']),
   ('>', ['\\', '>']),
   ('&', ['\\', '&']),
   ('*', ['\\', '*']),
   ('?', ['\\', '?']),
   ('$', ['\\', '$']),
   (Char.ofNat 96, ['\\', Char.ofNat 96]),
   ('!', ['\\', '!'])]

def applyPasses (ps : List (Char × List Char)) (l : List Char) : List Char :=
  ps.foldl (fun acc p => jsReplaceAllChar p.1 p.2 acc) l

/-- escapeTextForShell: the chained replace calls. -/
def escapeTextForShell (l : List Char) : List Char :=
  applyPasses shellReplacePasses l

/-- The characters the specification lists as escaped or substituted. -/
def shellEscapedChars : List Char := shellReplacePasses.map Prod.fst

/-- Per-character escaping map as the specification words it: the escaped
form for a listed character, the character itself otherwise. -/
def escChar (c : Char) : List Char :=
  match shellReplacePasses.find? (fun p => p.1 == c) with
  | some p => p.2
  | none => [c]

/-! ## parseLsOutput (src/src/tools/input.ts lines 548-576) -/

structure FileEntry where
  name : String
  permissions : String
  owner : String
  group : String
  size : Nat
  date : String
  isDirectory : Bool
deriving DecidableEq

def permsFirstClass (c : Char) : Bool :=
  c == 'd' || c == 'l' || c == 'b' || c == 'c' || c == 's' || c == 'p' || c == '-'

def permsModeClass (c : Char) : Bool :=
  c == 'r' || c == 'w' || c == 'x' || c == 's' || c == 't' || c == '-'

/-- The permissions field of the line regex: one type character, nine mode
characters, optional SELinux suffix dot or plus. -/
def takePerms : List Char → Option (List Char × List Char)
  | [] => none
  | c :: r =>
    if permsFirstClass c then
      let nine := r.take 9
      if nine.length == 9 && nine.all permsModeClass then
        match r.drop 9 with
        | [] => some (c :: nine, [])
        | x :: r2 =>
          if x == '+' || x == '.' then some (c :: nine ++ [x], r2)
          else some (c :: nine, x :: r2)
      else none
    else none

/-- backslash-s plus: at least one whitespace character, consumed
greedily. -/
def takeWs1 (l : List Char) : Option (List Char) :=
  match l with
  | c :: _ => if jsWhitespaceChar c then some (l.dropWhile jsWhitespaceChar) else none
  | [] => none

/-- backslash-d plus: a nonempty greedy digit run. -/
def takeDigits1 (l : List Char) : Option (List Char × List Char) :=
  match l with
  | c :: _ =>
    if isDigitChar c then some (l.takeWhile isDigitChar, l.dropWhile isDigitChar)
    else none
  | [] => none

/-- backslash-S plus: a nonempty greedy non-whitespace run. -/
def takeTok (l : List Char) : Option (List Char × List Char) :=
  match l with
  | c :: _ =>
    if !jsWhitespaceChar c then
      some (l.takeWhile (fun ch => !jsWhitespaceChar ch),
        l.dropWhile (fun ch => !jsWhitespaceChar ch))
    else none
  | [] => none

/-- Exactly n digits. -/
def takeNDigits (n : Nat) (l : List Char) : Option (List Char × List Char) :=
  let pre := l.take n
  if pre.length == n && pre.all isDigitChar then some (pre, l.drop n) else none

def takeLit (c : Char) : List Char → Option (List Char)
  | x :: r => if x == c then some r else none
  | [] => none

/-- The date capture: four digits, dash, two, dash, two, whitespace run,
two digits, colon, two digits. -/
def takeDate (l : List Char) : Option (List Char × List Char) := do
  let (d4, r1) ← takeNDigits 4 l
  let r2 ← takeLit '-' r1
  let (m2, r3) ← takeNDigits 2 r2
  let r4 ← takeLit '-' r3
  let (dd2, r5) ← takeNDigits 2 r4
  let wsRun := r5.takeWhile jsWhitespaceChar
  if wsRun.isEmpty then none
  else do
    let r6 := r5.dropWhile jsWhitespaceChar
    let (h2, r7) ← takeNDigits 2 r6
    let r8 ← takeLit ':' r7
    let (mi2, r9) ← takeNDigits 2 r8
    some (d4 ++ ['-'] ++ m2 ++ ['-'] ++ dd2 ++ wsRun ++ h2 ++ [':'] ++ mi2, r9)

/-- The trailing whitespace-plus dot-plus dollar of the line regex: at
least one whitespace then a nonempty capture running to the end of the
line with no line terminator, taking the whitespace run greedily with
regex backtracking. -/
def nameQ (l : List Char) : Nat → Option (List Char)
  | 0 => none
  | q + 1 =>
    let rest := l.drop (q + 1)
    if !rest.isEmpty && rest.all (fun c => !lineTermChar c) then some rest
    else nameQ l q

def takeNameTail (l : List Char) : Option (List Char) :=
  nameQ l (l.takeWhile jsWhitespaceChar).length

structure LsMatch where
  permissions : List Char
  owner : List Char
  group : List Char
  sizeStr : List Char
  date : List Char
  namePart : List Char
deriving DecidableEq

/-- The anchored long-listing line regex of input.ts lines 556-558. -/
def lsLineMatch (l : List Char) : Option LsMatch := do
  let (perms, r1) ← takePerms l
  let r2 ← takeWs1 r1
  let (_links, r3) ← takeDigits1 r2
  let r4 ← takeWs1 r3
  let (owner, r5) ← takeTok r4
  let r6 ← takeWs1 r5
  let (group, r7) ← takeTok r6
  let r8 ← takeWs1 r7
  let (sizeStr, r9) ← takeDigits1 r8
  let r10 ← takeWs1 r9
  let (date, r11) ← takeDate r10
  let namePart ← takeNameTail r11
  some { permissions := perms, owner := owner, group := group,
         sizeStr := sizeStr, date := date, namePart := namePart }

def arrowSep : List Char := [' ', '-', '>', ' ']

/-- Everything before the first arrow separator:
namePart.split(" -> ")[0]. -/
def beforeFirstArrow : List Char → List Char
  | [] => []
  | c :: rest =>
    if startsWithList arrowSep (c :: rest) then []
    else c :: beforeFirstArrow rest

/-- One loop iteration of parseLsOutput (input.ts lines 550-574). -/
def parseLsLine (line : String) : Option FileEntry :=
  let t := jsTrimList line.data
  if t.isEmpty then none
  else if startsWithList "total ".data t then none
  else
    match lsLineMatch t with
    | none => none
    | some m =>
      some { name := ⟨jsTrimList (beforeFirstArrow m.namePart)⟩
             permissions := ⟨m.permissions⟩
             owner := ⟨m.owner⟩
             group := ⟨m.group⟩
             size := natOfDigits m.sizeStr
             date := ⟨m.date⟩
             isDirectory := startsWithList ['d'] m.permissions }

/-- output.split(the newline character). -/
def splitOnNl : List Char → List (List Char)
  | [] => [[]]
  | c :: rest =>
    let segs := splitOnNl rest
    if c = '\n' then [] :: segs
    else
      match segs with
      | s :: ss => (c :: s) :: ss
      | [] => [[c]]

/-- parseLsOutput (input.ts lines 548-576). -/
def parseLsOutput (output : String) : List FileEntry :=
  ((splitOnNl output.data).map (fun l => (⟨l⟩ : String))).filterMap parseLsLine

/-- One fold step of the existence condition tracked by
startedAndNotStopped. -/
def startedStep (s : String) (b : Bool) : SessionEvent → Bool
  | .startOk s2 _ _ _ => if s2 = s then true else b
  | .stop s2 => if s2 = s then false else b
  | _ => b

/-! ## Helper lemmas -/

theorem hasEntry_of_active {st : SessionTable} {s : String}
    (h : hasActiveSession st s = true) : hasEntry st s = true := by
  unfold hasActiveSession at h
  unfold hasEntry
  cases hst : st s with
  | none => rw [hst] at h; exact absurd h (by simp)
  | some e => simp [hst]

theorem hasEntry_step (st : SessionTable) (e : SessionEvent) (s : String) :
    hasEntry (stepSession st e) s = startedStep s (hasEntry st s) e := by
  cases e with
  | startOk s2 g w h =>
    simp only [stepSession, startedStep]
    cases hact : hasActiveSession st s2 with
    | true =>
      simp only [hact, if_true]
      by_cases hss : s2 = s
      · subst hss
        simp [hasEntry_of_active hact]
      · simp [hss]
    | false =>
      simp only [hact, Bool.false_eq_true, if_false]
      by_cases hss : s2 = s
      · subst hss
        simp [hasEntry]
      · have : ¬ s = s2 := fun hh => hss hh.symm
        simp [hasEntry, this, hss]
  | startFail s2 => rfl
  | sockClose s2 g =>
    simp only [stepSession, startedStep]
    cases hst : st s2 with
    | none => rfl
    | some e2 =>
      by_cases hg : e2.gen = g
      · simp only [hg, if_true]
        by_cases hss : s = s2
        · subst hss
          simp [hasEntry, hst]
        · simp [hasEntry, hss]
      · simp [hg]
  | sockError s2 g =>
    simp only [stepSession, startedStep]
    cases hst : st s2 with
    | none => rfl
    | some e2 =>
      by_cases hg : e2.gen = g
      · simp only [hg, if_true]
        by_cases hss : s = s2
        · subst hss
          simp [hasEntry, hst]
        · simp [hasEntry, hss]
      · simp [hg]
  | stop s2 =>
    simp only [stepSession, startedStep]
    by_cases hss : s2 = s
    · subst hss
      simp [hasEntry]
    · have : ¬ s = s2 := fun hh => hss hh.symm
      simp [hasEntry, this, hss]

theorem hasEntry_run (evs : List SessionEvent) :
    ∀ (st : SessionTable) (s : String),
      hasEntry (runSession st evs) s = evs.foldl (startedStep s) (hasEntry st s) := by
  induction evs with
  | nil => intro st s; rfl
  | cons e evs ih =>
    intro st s
    show hasEntry (runSession (stepSession st e) evs) s = _
    rw [ih (stepSession st e) s, hasEntry_step]
    rfl

theorem serviceRung_snd (env : AdbClipEnv) (ran : List String) :
    (serviceRung env ran).2 = ran ++ [cmdServiceCall] := by
  unfold serviceRung
  cases env.serviceOut with
  | none => rfl
  | some svc =>
    by_cases hsvc : svc.isEmpty
    · simp [hsvc]
    · simp only [hsvc, Bool.false_eq_true, if_false]
      cases parseServiceClipboardDump svc.data <;> rfl

/-! ## C1 -/

/-- C1: the claim says startSession connects to 127.0.0.1:27183 with
retries under a ten-second total budget and reads exactly one dummy byte
on every TCP connect, never treating a bare TCP accept as ready.  The
code's connectToServer resolves on the connect event of a single attempt
(the 10000 ms timer guards only the connect), reading nothing: an empty
tunnel yields a ready socket, and a sent dummy byte stays unread in the
stream. -/
theorem connect_treats_empty_tunnel_ready :
    connectToServer { acceptsTcp := true, serverBytes := [] } =
      Except.ok { pendingBytes := [], destroyed := false }
    ∧ connectToServer { acceptsTcp := true, serverBytes := [27] } =
      Except.ok { pendingBytes := [27], destroyed := false }
    ∧ connectTimeoutMs = 10000 :=
  ⟨rfl, rfl, rfl⟩

/-! ## C2 -/

/-- C2: the claim says startSession generates a random 31-bit scid,
forwards to localabstract:scrcpy_ followed by the scid, and passes the
version string 3.3.4 followed by the scid option.  The code forwards to
the fixed name localabstract:scrcpy, passes the hardcoded version 2.7 as
the first positional server argument, and no argument mentions a scid,
while the constants file's default version is 3.3.4. -/
theorem server_invocation_uses_v2_args :
    forwardArgs "SER" SCRCPY_SERVER_PORT =
      ["-s", "SER", "forward", "tcp:27183", "localabstract:scrcpy"]
    ∧ (serverArgs "SER" 1024 30 8000000).get? 7 = some "2.7"
    ∧ ((serverArgs "SER" 1024 30 8000000).all
        (fun a => !startsWithList "scid=".data a.data)) = true
    ∧ SCRCPY_SERVER_VERSION = "3.3.4"
    ∧ ("2.7" : String) ≠ SCRCPY_SERVER_VERSION := by
  refine ⟨by decide, by decide, by decide, rfl, by decide⟩

/-! ## C3 -/

/-- C3: the claim says the metadata step reads exactly a 76-byte frame
with u32be codec id, width and height at offsets 64, 68 and 72 and
returns spill bytes past 76.  The code resolves as soon as 68 bytes have
arrived and returns u16be values at offsets 5 and 7, returning no spill:
on the frame whose bytes are 0,1,...,75 followed by two stream bytes the
code yields (1286, 1800), which differs from the u32be fields the
documented layout prescribes, and it already resolves on a 68-byte
prefix that the documented layout rejects.  The 5 s timer is as claimed. -/
theorem receive_meta_uses_68_byte_u16_frame :
    receiveDeviceMeta [List.range 76 ++ [9, 9]] = some (1286, 1800)
    ∧ receiveDeviceMeta [List.range 68] = some (1286, 1800)
    ∧ (List.range 68).length < DEVICE_META_SIZE
    ∧ specReceiveDeviceMeta (List.range 76 ++ [9, 9]) =
        some { deviceName := List.range 64
               codecId := readUint32BE (List.range 76) 64
               width := readUint32BE (List.range 76) VIDEO_WIDTH_OFFSET
               height := readUint32BE (List.range 76) VIDEO_HEIGHT_OFFSET
               spill := [9, 9] }
    ∧ (1286, 1800) ≠
        (readUint32BE (List.range 76) VIDEO_WIDTH_OFFSET,
          readUint32BE (List.range 76) VIDEO_HEIGHT_OFFSET)
    ∧ specReceiveDeviceMeta (List.range 68) = none
    ∧ metadataTimeoutMs = 5000 := by
  refine ⟨by decide, by decide, by decide, by decide, by decide, by decide, rfl⟩

/-! ## C4 -/

/-- C4 counterexample: the claim says that on any socket error or close
the table entry for that serial is dropped.  After a successful start for
serial A followed by the close event of its socket, the entry is still in
the table (with its control socket cleared). -/
theorem entry_survives_socket_close_counterexample :
    (runSession emptyTable
        [SessionEvent.startOk "A" 0 576 1024, SessionEvent.sockClose "A" 0]) "A" =
      some { gen := 0, controlSocket := none, width := 576, height := 1024 }
    ∧ hasEntry (runSession emptyTable
        [SessionEvent.startOk "A" 0 576 1024, SessionEvent.sockClose "A" 0]) "A" = true := by
  refine ⟨by decide, by decide⟩

/-- C4 amended: a serial has an entry in the session table exactly when
some startSession completed its connect and 68-byte metadata read for it
with no later stopSession; socket close and error events keep the entry,
only clearing its control socket, and only stopSession drops it. -/
theorem session_table_amended_invariant :
    (∀ (evs : List SessionEvent) (s : String),
      hasEntry (runSession emptyTable evs) s = startedAndNotStopped evs s)
    ∧ (∀ (st : SessionTable) (s : String) (g : Nat),
        stepSession st (SessionEvent.sockClose s g) s =
          (match st s with
           | some e => if e.gen = g then some { e with controlSocket := none } else some e
           | none => none))
    ∧ (∀ (st : SessionTable) (s : String) (g : Nat),
        stepSession st (SessionEvent.sockError s g) s =
          (match st s with
           | some e => if e.gen = g then some { e with controlSocket := none } else some e
           | none => none))
    ∧ (∀ (st : SessionTable) (s : String), stepSession st (SessionEvent.stop s) s = none) := by
  refine ⟨?_, ?_, ?_, ?_⟩
  · intro evs s
    have h := hasEntry_run evs emptyTable s
    have hbase : hasEntry emptyTable s = false := rfl
    rw [hbase] at h
    exact h
  · intro st s g
    simp only [stepSession]
    cases hst : st s with
    | none => simp [hst]
    | some e =>
      by_cases hg : e.gen = g
      · simp [hst, hg]
      · simp [hst, hg]
  · intro st s g
    simp only [stepSession]
    cases hst : st s with
    | none => simp [hst]
    | some e =>
      by_cases hg : e.gen = g
      · simp [hst, hg]
      · simp [hst, hg]
  · intro st s
    simp [stepSession]

/-! ## C5 -/

/-- C5: for every routed operation, a transport error thrown on the
scrcpy path is caught (and logged) and the ADB rung is then attempted;
with the serial resolved, an error reaches the caller only when the
fallback itself failed, and then as the error payload - the handlers
always return a ToolOutcome, so no exception reaches the framework.
Stated for the shared two-rung handler shape and for the clipboard_get
handler. -/
theorem router_catches_scrcpy_and_falls_back :
    (∀ (s m : String) (ad : Except String String),
      routeOp (Except.ok s) true (Except.error m) ad = adbRung ad)
    ∧ (∀ (s : String) (act : Bool) (sc ad : Except String String) (m : String),
        routeOp (Except.ok s) act sc ad = ToolOutcome.errPayload m → ad = Except.error m)
    ∧ (∀ (s m : String) (ad : Option String),
        routeClipboardGet (Except.ok s) true (Except.error m) ad = clipboardAdbRung ad)
    ∧ (∀ (s : String) (act : Bool) (scg : Except String (Option String))
        (ad : Option String) (m : String),
        routeClipboardGet (Except.ok s) act scg ad = ToolOutcome.errPayload m →
          ad = none ∧ m = clipboardAdbFailMsg) := by
  refine ⟨?_, ?_, ?_, ?_⟩
  · intro s m ad; rfl
  · intro s act sc ad m h
    cases act with
    | false =>
      simp only [routeOp, Bool.false_eq_true, if_false] at h
      cases ad with
      | ok m2 => exact absurd h (by simp [adbRung])
      | error m2 => simp only [adbRung, ToolOutcome.errPayload.injEq] at h; rw [h]
    | true =>
      simp only [routeOp, if_true] at h
      cases sc with
      | ok m2 => exact absurd h (by simp)
      | error m2 =>
        cases ad with
        | ok m3 => exact absurd h (by simp [adbRung])
        | error m3 => simp only [adbRung, ToolOutcome.errPayload.injEq] at h; rw [h]
  · intro s m ad; rfl
  · intro s act scg ad m h
    have hfall : clipboardAdbRung ad = ToolOutcome.errPayload m →
        ad = none ∧ m = clipboardAdbFailMsg := by
      intro hh
      cases ad with
      | some c => exact absurd hh (by simp [clipboardAdbRung])
      | none =>
        simp only [clipboardAdbRung, ToolOutcome.errPayload.injEq] at hh
        exact ⟨rfl, hh.symm⟩
    cases act with
    | false =>
      simp only [routeClipboardGet, Bool.false_eq_true, if_false] at h
      exact hfall h
    | true =>
      simp only [routeClipboardGet, if_true] at h
      cases scg with
      | ok o =>
        cases o with
        | some c => exact absurd h (by simp)
        | none => exact hfall h
      | error m2 => exact hfall h

/-- C5 witness. -/
theorem router_catches_scrcpy_and_falls_back_witness :
    routeOp (Except.ok "S") true (Except.error "boom") (Except.ok "tapped") =
      adbRung (Except.ok "tapped")
    ∧ (Except.error "shell failed" : Except String String) = Except.error "shell failed"
    ∧ ((none : Option String) = none ∧ clipboardAdbFailMsg = clipboardAdbFailMsg) := by
  refine ⟨?_, ?_, ?_⟩
  · exact router_catches_scrcpy_and_falls_back.1 "S" "boom" (Except.ok "tapped")
  · exact router_catches_scrcpy_and_falls_back.2.1 "S" true (Except.error "boom")
      (Except.error "shell failed") "shell failed" (by rfl)
  · exact router_catches_scrcpy_and_falls_back.2.2.2 "S" true (Except.error "boom")
      none clipboardAdbFailMsg (by rfl)

/-! ## C10 -/

/-- C10: after the close (or error) event of a registered session's
socket, the entry remains with its control socket cleared,
hasActiveSession is false, routing therefore ignores the scrcpy rung
entirely, and a later startSession does not early-return: it re-runs the
protocol and overwrites the stale entry with a fresh one. -/
theorem stale_session_adb_routing :
    ∀ (st : SessionTable) (s : String) (g : Nat) (e : SessionEntry) (sock : Sock),
      st s = some e → e.gen = g → e.controlSocket = some sock → sock.destroyed = false →
      stepSession st (SessionEvent.sockClose s g) s = some { e with controlSocket := none }
      ∧ hasActiveSession (stepSession st (SessionEvent.sockClose s g)) s = false
      ∧ (∀ (r : Except String String) (sc1 sc2 ad : Except String String),
          routeOp r (hasActiveSession (stepSession st (SessionEvent.sockClose s g)) s) sc1 ad =
            routeOp r (hasActiveSession (stepSession st (SessionEvent.sockClose s g)) s) sc2 ad)
      ∧ (∀ (g2 w2 h2 : Nat),
          stepSession (stepSession st (SessionEvent.sockClose s g))
              (SessionEvent.startOk s g2 w2 h2) s =
            some { gen := g2, controlSocket := some { destroyed := false },
                   width := w2, height := h2 }) := by
  intro st s g e sock hst hgen hsock hdest
  have hstep : stepSession st (SessionEvent.sockClose s g) s =
      some { e with controlSocket := none } := by
    simp only [stepSession]
    simp [hst, hgen]
  have hact : hasActiveSession (stepSession st (SessionEvent.sockClose s g)) s = false := by
    unfold hasActiveSession
    rw [hstep]
  refine ⟨hstep, hact, ?_, ?_⟩
  · intro r sc1 sc2 ad
    rw [hact]
    cases r <;> rfl
  · intro g2 w2 h2
    generalize hq : stepSession st (SessionEvent.sockClose s g) = st2 at hact ⊢
    simp [stepSession, hact]

/-- C10 witness. -/
theorem stale_session_adb_routing_witness :
    stepSession (runSession emptyTable [SessionEvent.startOk "A" 0 576 1024])
        (SessionEvent.sockClose "A" 0) "A" =
      some { gen := 0, controlSocket := none, width := 576, height := 1024 }
    ∧ hasActiveSession (stepSession (runSession emptyTable
        [SessionEvent.startOk "A" 0 576 1024]) (SessionEvent.sockClose "A" 0)) "A" = false
    ∧ stepSession (stepSession (runSession emptyTable [SessionEvent.startOk "A" 0 576 1024])
          (SessionEvent.sockClose "A" 0)) (SessionEvent.startOk "A" 1 10 20) "A" =
        some { gen := 1, controlSocket := some { destroyed := false }, width := 10, height := 20 } := by
  have h := stale_session_adb_routing
    (runSession emptyTable [SessionEvent.startOk "A" 0 576 1024]) "A" 0
    { gen := 0, controlSocket := some { destroyed := false }, width := 576, height := 1024 }
    { destroyed := false } (by decide) rfl rfl rfl
  exact ⟨h.1, h.2.1, h.2.2.2 1 10 20⟩

/-! ## C6 -/

theorem swipe_events_countP (x1 y1 x2 y2 : ℤ) (d : Nat) :
    (swipeViaScrcpy x1 y1 x2 y2 d).events.countP isMoveEvt = swipeSteps d - 1 := by
  simp only [swipeViaScrcpy, List.countP_cons, List.countP_append]
  have hmap : List.countP isMoveEvt
      ((List.range (swipeSteps d - 1)).map
        (fun i => (TouchAction.move, swipeMovePoint x1 x2 (swipeSteps d) (i + 1),
          swipeMovePoint y1 y2 (swipeSteps d) (i + 1)))) = swipeSteps d - 1 := by
    rw [List.countP_eq_length.mpr]
    · rw [List.length_map, List.length_range]
    · intro a ha
      obtain ⟨i, _, rfl⟩ := List.mem_map.mp ha
      rfl
  simp [hmap, isMoveEvt]

/-- C6 counterexample: the claim says swipe sends exactly the floor of
ms/16 interpolated MOVE events; at the default duration 300 ms the floor
is 18 but the code's loop runs from 1 to steps-1 and emits 17. -/
theorem swipe_move_count_counterexample :
    (swipeViaScrcpy 0 0 100 100 300).events.countP isMoveEvt ≠ 300 / 16
    ∧ 300 / 16 = 18
    ∧ (swipeViaScrcpy 0 0 100 100 300).events.countP isMoveEvt = 17 := by
  refine ⟨by decide, by decide, by decide⟩

/-- C6 amended: with steps = max(2, floor(ms/16)), swipe over scrcpy
sends a DOWN at the start point, then exactly steps - 1
linearly-interpolated MOVE events paced at ms/steps, then an UP at the
end point; its ADB fallback is input swipe x1 y1 x2 y2 ms. -/
theorem swipe_amended_structure :
    ∀ (x1 y1 x2 y2 : ℤ) (d : Nat),
      (swipeViaScrcpy x1 y1 x2 y2 d).events.countP isMoveEvt = swipeSteps d - 1
      ∧ (swipeViaScrcpy x1 y1 x2 y2 d).events.head? = some (TouchAction.down, x1, y1)
      ∧ (swipeViaScrcpy x1 y1 x2 y2 d).events.getLast? = some (TouchAction.up, x2, y2)
      ∧ (swipeViaScrcpy x1 y1 x2 y2 d).stepDelayMs = (d : ℚ) / (swipeSteps d : ℚ)
      ∧ swipeSteps d = max 2 (d / 16)
      ∧ (∀ i, i < swipeSteps d - 1 →
          (swipeViaScrcpy x1 y1 x2 y2 d).events.get? (i + 1) =
            some (TouchAction.move, swipeMovePoint x1 x2 (swipeSteps d) (i + 1),
              swipeMovePoint y1 y2 (swipeSteps d) (i + 1)))
      ∧ (∀ a b c2 e f : Nat,
          swipeAdbCommand a b c2 e f =
            "input swipe " ++ toString a ++ " " ++ toString b ++ " " ++ toString c2 ++ " "
              ++ toString e ++ " " ++ toString f) := by
  intro x1 y1 x2 y2 d
  refine ⟨swipe_events_countP x1 y1 x2 y2 d, rfl, ?_, rfl, rfl, ?_, ?_⟩
  · show (((TouchAction.down, x1, y1) :: (List.range (swipeSteps d - 1)).map _)
        ++ [(TouchAction.up, x2, y2)]).getLast? = _
    rw [List.getLast?_concat]
  · intro i hi
    show (((TouchAction.down, x1, y1) ::
        ((List.range (swipeSteps d - 1)).map _ ++ [(TouchAction.up, x2, y2)]))).get? (i + 1) = _
    rw [List.get?_cons_succ,
      List.get?_append (by rw [List.length_map, List.length_range]; exact hi),
      List.get?_map, List.get?_range hi]
    rfl
  · intro a b c2 e f
    rfl

/-- C6 witness. -/
theorem swipe_amended_structure_witness :
    (swipeViaScrcpy 0 0 100 100 300).events.countP isMoveEvt = swipeSteps 300 - 1
    ∧ (swipeViaScrcpy 0 0 100 100 300).events.get? 1 =
        some (TouchAction.move, swipeMovePoint 0 100 (swipeSteps 300) 1,
          swipeMovePoint 0 100 (swipeSteps 300) 1)
    ∧ swipeAdbCommand 1 2 3 4 300 = "input swipe 1 2 3 4 300" := by
  obtain ⟨h1, _, _, _, _, h6, h7⟩ := swipe_amended_structure 0 0 100 100 300
  refine ⟨h1, h6 0 (by decide), ?_⟩
  rw [h7 1 2 3 4 300]
  rfl

/-! ## C8 -/

theorem flatMapChars_append (f : Char → List Char) (a b : List Char) :
    flatMapChars f (a ++ b) = flatMapChars f a ++ flatMapChars f b := by
  induction a with
  | nil => rfl
  | cons c a ih => simp [flatMapChars, ih]

theorem jsReplaceAllChar_append (t : Char) (r : List Char) (a b : List Char) :
    jsReplaceAllChar t r (a ++ b) = jsReplaceAllChar t r a ++ jsReplaceAllChar t r b :=
  flatMapChars_append _ a b

theorem applyPasses_append (ps : List (Char × List Char)) :
    ∀ a b : List Char, applyPasses ps (a ++ b) = applyPasses ps a ++ applyPasses ps b := by
  induction ps with
  | nil => intro a b; rfl
  | cons p ps ih =>
    intro a b
    show applyPasses ps (jsReplaceAllChar p.1 p.2 (a ++ b)) = _
    rw [jsReplaceAllChar_append]
    exact ih _ _

theorem jsReplaceAllChar_id (t : Char) (r : List Char) (s : List Char)
    (h : ∀ c ∈ s, ¬ c = t) : jsReplaceAllChar t r s = s := by
  induction s with
  | nil => rfl
  | cons c s ih =>
    simp only [jsReplaceAllChar, flatMapChars] at *
    rw [if_neg (h c (by simp)), ih (fun c2 hc2 => h c2 (by simp [hc2]))]
    rfl

theorem applyPasses_id (ps : List (Char × List Char)) (s : List Char)
    (h : ∀ p ∈ ps, ∀ c ∈ s, ¬ c = p.1) : applyPasses ps s = s := by
  induction ps with
  | nil => rfl
  | cons p ps ih =>
    show applyPasses ps (jsReplaceAllChar p.1 p.2 s) = s
    rw [jsReplaceAllChar_id p.1 p.2 s (h p (by simp))]
    exact ih (fun q hq => h q (by simp [hq]))

theorem applyPasses_single (ps : List (Char × List Char))
    (hps : List.Pairwise (fun p q => ∀ c ∈ p.2, ¬ c = q.1) ps) (c : Char) :
    applyPasses ps [c] =
      (match ps.find? (fun p => p.1 == c) with
       | some p => p.2
       | none => [c]) := by
  induction ps with
  | nil => rfl
  | cons p ps ih =>
    obtain ⟨hhead, htail⟩ := List.pairwise_cons.mp hps
    show applyPasses ps (jsReplaceAllChar p.1 p.2 [c]) = _
    by_cases hc : c = p.1
    · have hrep : jsReplaceAllChar p.1 p.2 [c] = p.2 := by
        simp [jsReplaceAllChar, flatMapChars, hc]
      rw [hrep, applyPasses_id ps p.2 (fun q hq ch hch => hhead q hq ch hch)]
      have hfind : (p :: ps).find? (fun p2 => p2.1 == c) = some p := by
        simp [List.find?_cons, hc]
      rw [hfind]
    · have hrep : jsReplaceAllChar p.1 p.2 [c] = [c] := by
        simp [jsReplaceAllChar, flatMapChars, hc]
      rw [hrep, ih htail]
      have hbeq : (p.1 == c) = false := by
        simp only [beq_eq_false_iff_ne, ne_eq]
        exact fun he => hc he.symm
      simp [List.find?_cons, hbeq]

theorem shellPasses_pairwise :
    List.Pairwise (fun p q : Char × List Char => ∀ c ∈ p.2, ¬ c = q.1) shellReplacePasses := by
  decide

theorem applyPasses_nil (ps : List (Char × List Char)) : applyPasses ps [] = [] := by
  induction ps with
  | nil => rfl
  | cons p ps ih =>
    show applyPasses ps (jsReplaceAllChar p.1 p.2 []) = []
    exact ih

/-- C8: escapeTextForShell acts character by character: every character
in the escape list is replaced by its escaped form (space by the percent-s
token, the others by their backslash-escaped form) and every other
character is left unchanged. -/
theorem escape_text_charwise :
    (∀ l : List Char, escapeTextForShell l = flatMapChars escChar l)
    ∧ (∀ c : Char, c ∉ shellEscapedChars → escChar c = [c])
    ∧ escChar ' ' = ['%', 's']
    ∧ (∀ c : Char, c ∈ shellEscapedChars → c ≠ ' ' → escChar c = ['\\', c]) := by
  refine ⟨?_, ?_, by decide, ?_⟩
  · intro l
    induction l with
    | nil => exact applyPasses_nil _
    | cons c l ih =>
      show applyPasses shellReplacePasses ([c] ++ l) = _
      rw [applyPasses_append, applyPasses_single _ shellPasses_pairwise c]
      show _ ++ escapeTextForShell l = _
      rw [ih]
      rfl
  · intro c h
    unfold escChar
    have hnone : shellReplacePasses.find? (fun p => p.1 == c) = none := by
      rw [List.find?_eq_none]
      intro p hp
      simp only [beq_iff_eq]
      intro he
      exact h (he ▸ List.mem_map_of_mem Prod.fst hp)
    rw [hnone]
  · intro c hc hne
    fin_cases hc <;> first
      | rfl
      | exact absurd rfl hne

/-- C8 witness. -/
theorem escape_text_charwise_witness :
    escapeTextForShell "a b".data = flatMapChars escChar "a b".data
    ∧ escChar 'a' = ['a']
    ∧ escChar '(' = ['\\', '('] := by
  refine ⟨escape_text_charwise.1 "a b".data, ?_, ?_⟩
  · exact escape_text_charwise.2.1 'a' (by decide)
  · exact escape_text_charwise.2.2.2 '(' (by decide) (by decide)

/-! ## C7 -/

theorem parse_dump_eq_chain (svc : List Char) :
    parseServiceClipboardDump svc = claimStrategyChain svc := by
  unfold parseServiceClipboardDump claimStrategyChain
  cases h1 : strat1 svc with
  | none =>
    cases h2 : strat2 svc with
    | none =>
      cases h3 : strat3 svc with
      | none => simp [truthyText, nonEmptyOpt]
      | some hex =>
        by_cases he : (utf8Decode (hexPairsToBytes hex)).isEmpty
        · simp [truthyText, nonEmptyOpt, he]
        · simp [truthyText, nonEmptyOpt, he]
    | some cap2 =>
      by_cases he2 : cap2.isEmpty
      · cases h3 : strat3 svc with
        | none => simp [truthyText, nonEmptyOpt, he2]
        | some hex =>
          by_cases he : (utf8Decode (hexPairsToBytes hex)).isEmpty
          · simp [truthyText, nonEmptyOpt, he2, he]
          · simp [truthyText, nonEmptyOpt, he2, he]
      · simp [truthyText, nonEmptyOpt, he2]
  | some cap1 =>
    by_cases he1 : (jsTrimList cap1).isEmpty
    · cases h2 : strat2 svc with
      | none =>
        cases h3 : strat3 svc with
        | none => simp [truthyText, nonEmptyOpt, he1]
        | some hex =>
          by_cases he : (utf8Decode (hexPairsToBytes hex)).isEmpty
          · simp [truthyText, nonEmptyOpt, he1, he]
          · simp [truthyText, nonEmptyOpt, he1, he]
      | some cap2 =>
        by_cases he2 : cap2.isEmpty
        · cases h3 : strat3 svc with
          | none => simp [truthyText, nonEmptyOpt, he1, he2]
          | some hex =>
            by_cases he : (utf8Decode (hexPairsToBytes hex)).isEmpty
            · simp [truthyText, nonEmptyOpt, he1, he2, he]
            · simp [truthyText, nonEmptyOpt, he1, he2, he]
        · simp [truthyText, nonEmptyOpt, he1, he2]
    · simp [truthyText, nonEmptyOpt, he1]

/-- C7: with no active session, clipboard get on SDK at least 31 runs
cmd clipboard get first; on lower or unparsable SDK it runs
service call clipboard 2 alone and extracts text by the three strategies
in order (the result=0 regex, the first double-quoted substring, a hex
run decoded as UTF-8), decoding octal escapes after extraction. -/
theorem clipboard_get_fallback_strategies :
    (∀ (env : AdbClipEnv) (sdkStr : String), env.sdkProp = some sdkStr →
      sdkAtLeast sdkStr 31 = true →
      (getClipboardViaAdb env).2.head? = some cmdClipboardGet)
    ∧ (∀ (env : AdbClipEnv) (sdkStr : String), env.sdkProp = some sdkStr →
        sdkAtLeast sdkStr 31 = false →
        (getClipboardViaAdb env).2 = [cmdServiceCall])
    ∧ (∀ svc : List Char, parseServiceClipboardDump svc = claimStrategyChain svc)
    ∧ (∀ (d1 d2 d3 : Char) (rest : List Char),
        isDigitChar d1 = true → digitVal d1 ≤ 7 →
        isDigitChar d2 = true → digitVal d2 ≤ 7 →
        isDigitChar d3 = true → digitVal d3 ≤ 7 →
        decodeOctalEscapes ('\\' :: d1 :: d2 :: d3 :: rest) =
          Char.ofNat ((digitVal d1 * 8 + digitVal d2) * 8 + digitVal d3) ::
            decodeOctalEscapes rest) := by
  refine ⟨?_, ?_, parse_dump_eq_chain, ?_⟩
  · intro env sdkStr h hsdk
    unfold getClipboardViaAdb
    rw [h]
    simp only [hsdk, if_true]
    cases env.cmdGetOut with
    | none => rfl
    | some result =>
      by_cases hres : (!result.isEmpty && !containsList "not found".data result.data
          && !containsList "Error".data result.data) = true
      · simp [hres]
      · simp only [hres, Bool.false_eq_true, if_false]
        rw [serviceRung_snd]
        rfl
  · intro env sdkStr h hsdk
    unfold getClipboardViaAdb
    rw [h]
    simp only [hsdk, Bool.false_eq_true, if_false]
    rw [serviceRung_snd]
    rfl
  · intro d1 d2 d3 rest hd1 hv1 hd2 hv2 hd3 hv3
    simp only [decodeOctalEscapes, hd1, hd2, hd3, Bool.and_self, if_true]
    unfold jsFromCharCodeOct
    rw [if_neg (by omega), if_neg (by omega), if_neg (by omega)]

/-- C7 witness. -/
theorem clipboard_get_fallback_strategies_witness :
    (getClipboardViaAdb ⟨some "33", some "hello", none⟩).2.head? = some cmdClipboardGet
    ∧ (getClipboardViaAdb ⟨some "28", none, some "result=0 ) foo"⟩).2 = [cmdServiceCall]
    ∧ parseServiceClipboardDump "no match 0x4142".data =
        claimStrategyChain "no match 0x4142".data
    ∧ decodeOctalEscapes ('\\' :: '1' :: '0' :: '1' :: []) =
        Char.ofNat ((digitVal '1' * 8 + digitVal '0') * 8 + digitVal '1') ::
          decodeOctalEscapes [] := by
  refine ⟨?_, ?_, ?_, ?_⟩
  · exact clipboard_get_fallback_strategies.1
      ⟨some "33", some "hello", none⟩ "33" rfl (by decide)
  · exact clipboard_get_fallback_strategies.2.1
      ⟨some "28", none, some "result=0 ) foo"⟩ "28" rfl (by decide)
  · exact clipboard_get_fallback_strategies.2.2.1 "no match 0x4142".data
  · exact clipboard_get_fallback_strategies.2.2.2 '1' '0' '1' []
      (by decide) (by decide) (by decide) (by decide) (by decide) (by decide)

/-! ## C9 -/

theorem startsWith_d_iff (l : List Char) :
    startsWithList ['d'] l = true ↔ l.head? = some 'd' := by
  cases l with
  | nil => simp [startsWithList]
  | cons c rest =>
    show (([c] : List Char) == ['d']) = true ↔ some c = some 'd'
    rw [beq_iff_eq]
    simp

theorem parseLsLine_some {line : String} {e : FileEntry} (h : parseLsLine line = some e) :
    ∃ m, lsLineMatch (jsTrimList line.data) = some m ∧
      e.permissions = (⟨m.permissions⟩ : String) ∧
      e.name = (⟨jsTrimList (beforeFirstArrow m.namePart)⟩ : String) ∧
      e.isDirectory = startsWithList ['d'] m.permissions := by
  simp only [parseLsLine] at h
  split at h
  · exact absurd h (by simp)
  · split at h
    · exact absurd h (by simp)
    · split at h
      · exact absurd h (by simp)
      · rename_i m hm
        cases Option.some.inj h
        exact ⟨m, hm, rfl, rfl, rfl⟩

theorem lsLineMatch_perms {t : List Char} {m : LsMatch} (h : lsLineMatch t = some m) :
    ∃ r1, takePerms t = some (m.permissions, r1) := by
  simp only [lsLineMatch, bind, Option.bind_eq_some] at h
  obtain ⟨⟨perms, r1⟩, hp, h⟩ := h
  obtain ⟨r2, _, h⟩ := h
  obtain ⟨⟨links, r3⟩, _, h⟩ := h
  obtain ⟨r4, _, h⟩ := h
  obtain ⟨⟨owner, r5⟩, _, h⟩ := h
  obtain ⟨r6, _, h⟩ := h
  obtain ⟨⟨group, r7⟩, _, h⟩ := h
  obtain ⟨r8, _, h⟩ := h
  obtain ⟨⟨sizeStr, r9⟩, _, h⟩ := h
  obtain ⟨r10, _, h⟩ := h
  obtain ⟨⟨date, r11⟩, _, h⟩ := h
  obtain ⟨namePart, _, h⟩ := h
  cases Option.some.inj h
  exact ⟨r1, hp⟩

theorem takePerms_shape {l : List Char} {pr : List Char × List Char}
    (h : takePerms l = some pr) :
    ∃ c rest, pr.1 = c :: rest ∧ permsFirstClass c = true ∧
      (rest.take 9).all permsModeClass = true ∧
      (rest.length = 9 ∨
        (rest.length = 10 ∧ ∃ x, rest.getLast? = some x ∧ (x = '+' ∨ x = '.'))) := by
  cases l with
  | nil => exact absurd h (by simp [takePerms])
  | cons c r =>
    simp only [takePerms] at h
    split at h
    · split at h
      · rename_i hc hnine
        rw [Bool.and_eq_true] at hnine
        obtain ⟨hlen, hall⟩ := hnine
        have hlen9 : (r.take 9).length = 9 := beq_iff_eq.mp hlen
        have htake : (r.take 9).take 9 = r.take 9 :=
          List.take_of_length_le (le_of_eq hlen9)
        split at h
        · cases Option.some.inj h
          exact ⟨c, r.take 9, rfl, hc, by rw [htake]; exact hall, Or.inl hlen9⟩
        · rename_i x r2 hdrop
          split at h
          · rename_i hx
            cases Option.some.inj h
            refine ⟨c, r.take 9 ++ [x], rfl, hc, ?_, Or.inr ⟨?_, x, ?_, ?_⟩⟩
            · rw [List.take_left' hlen9]
              exact hall
            · simp [hlen9]
            · exact List.getLast?_concat _
            · rw [Bool.or_eq_true] at hx
              rcases hx with h1 | h1
              · exact Or.inl (eq_of_beq h1)
              · exact Or.inr (eq_of_beq h1)
          · cases Option.some.inj h
            exact ⟨c, r.take 9, rfl, hc, by rw [htake]; exact hall, Or.inl hlen9⟩
      · exact absurd h (by simp)
    · exact absurd h (by simp)

/-- C9: the long-listing loop skips empty lines and lines whose trimmed
text starts with the total prefix, silently skips lines that the
permissions/link-count/owner/group/size/date pattern rejects (permissions
being one of the type characters then nine mode characters and an
optional SELinux dot or plus suffix), takes the part of the name
remainder before the first arrow separator, and sets the directory flag
exactly when the first permission character is d. -/
theorem ls_long_listing_behavior :
    (∀ line : String, jsTrimList line.data = [] → parseLsLine line = none)
    ∧ (∀ line : String, startsWithList "total ".data (jsTrimList line.data) = true →
        parseLsLine line = none)
    ∧ (∀ line : String, lsLineMatch (jsTrimList line.data) = none → parseLsLine line = none)
    ∧ (∀ (line : String) (e : FileEntry), parseLsLine line = some e →
        (e.isDirectory = true ↔ e.permissions.data.head? = some 'd'))
    ∧ (∀ (line : String) (e : FileEntry), parseLsLine line = some e →
        ∃ c rest, e.permissions.data = c :: rest ∧ permsFirstClass c = true ∧
          (rest.take 9).all permsModeClass = true ∧
          (rest.length = 9 ∨
            (rest.length = 10 ∧ ∃ x, rest.getLast? = some x ∧ (x = '+' ∨ x = '.'))))
    ∧ (∀ l : List Char, containsList arrowSep l = false → beforeFirstArrow l = l)
    ∧ (∀ b : List Char, beforeFirstArrow (arrowSep ++ b) = [])
    ∧ (∀ out : String, parseLsOutput out =
        ((splitOnNl out.data).map (fun l => (⟨l⟩ : String))).filterMap parseLsLine) := by
  refine ⟨?_, ?_, ?_, ?_, ?_, ?_, ?_, fun _ => rfl⟩
  · intro line h
    unfold parseLsLine
    simp [h]
  · intro line h
    unfold parseLsLine
    by_cases hemp : (jsTrimList line.data).isEmpty
    · simp [hemp]
    · simp [hemp, h]
  · intro line h
    unfold parseLsLine
    by_cases hemp : (jsTrimList line.data).isEmpty
    · simp [hemp]
    · by_cases htot : startsWithList "total ".data (jsTrimList line.data)
      · simp [hemp, htot]
      · simp [hemp, htot, h]
  · intro line e h
    obtain ⟨m, _, hperm, _, hdir⟩ := parseLsLine_some h
    rw [hdir, hperm]
    exact startsWith_d_iff m.permissions
  · intro line e h
    obtain ⟨m, hm, hperm, _, _⟩ := parseLsLine_some h
    obtain ⟨r1, hp⟩ := lsLineMatch_perms hm
    obtain ⟨c, rest, hshape, h1, h2, h3⟩ := takePerms_shape hp
    exact ⟨c, rest, by rw [hperm]; exact hshape, h1, h2, h3⟩
  · intro l h
    induction l with
    | nil => rfl
    | cons c rest ih =>
      unfold containsList at h
      obtain ⟨hs, hr⟩ := by
        have := Bool.or_eq_false_iff.mp h
        exact this
      unfold beforeFirstArrow
      rw [if_neg (by simp [hs]), ih hr]
  · intro b
    rfl

/-- C9 witness. -/
theorem ls_long_listing_behavior_witness :
    parseLsLine "  total 48" = none
    ∧ ((FileEntry.mk "DCIM" "drwxrwxr-x." "root" "sdcard" 4096 "2024-03-10 09:15"
          true).isDirectory = true
        ↔ (FileEntry.mk "DCIM" "drwxrwxr-x." "root" "sdcard" 4096 "2024-03-10 09:15"
          true).permissions.data.head? = some 'd') := by
  constructor
  · exact ls_long_listing_behavior.2.1 "  total 48" (by decide)
  · exact ls_long_listing_behavior.2.2.2.1
      "drwxrwxr-x. 2 root sdcard 4096 2024-03-10 09:15 DCIM"
      (FileEntry.mk "DCIM" "drwxrwxr-x." "root" "sdcard" 4096 "2024-03-10 09:15" true)
      (by decide)

end ScrcpyMcp
